import Mathlib

/-!
Verification of the KEV dashboard filtering/aggregation core (src/main.py).

The program loads a CSV of known-exploited vulnerabilities, drops records
whose `dateAdded` cannot be parsed, normalizes the ransomware column to
trimmed lowercase text, and serves a callback `update_graph` that filters
the dataset by years, vendors, CWE substrings and ransomware mode and then
groups the surviving records by calendar month, returning one count per
non-empty month, sorted ascending.

The embedding below models pandas rows as `Record` values, missing cells as
`Option`, and mirrors each filtering line of `update_graph` as its own
stage.  pandas `groupby(...).size()` over month periods is modelled as:
collect the distinct month keys of the filtered rows, sort them ascending,
and pair each with the number of rows falling in that month.
-/

namespace KEV

/-- A parsed calendar date, as produced by `pd.to_datetime`. -/
structure Date where
  year : Nat
  month : Nat
  day : Nat
deriving DecidableEq, Repr

/-- A raw CSV row before load-time cleaning: `dateAdded` is `none` when
`pd.to_datetime(..., errors='coerce')` fails to parse the cell, and the
other fields are `none` when the CSV cell is missing (pandas NaN). -/
structure RawRecord where
  dateAdded : Option Date
  vendorProject : Option String
  cwes : Option String
  knownRansomwareCampaignUse : Option String
deriving DecidableEq, Repr

/-- An in-memory row after load-time cleaning (main.py lines 7-12): the
date is parsed, and the ransomware column has been coerced to a string,
stripped and lowercased.  `vendorProject` and `cwes` may still be missing. -/
structure Record where
  dateAdded : Date
  vendorProject : Option String
  cwes : Option String
  knownRansomwareCampaignUse : String
deriving DecidableEq, Repr

/-- `astype(str).str.strip().str.lower()` on the ransomware column
(main.py line 12); a missing cell (NaN) stringifies to "nan". -/
def normalizeRansomware : Option String → String
  | none => "nan"
  | some s => s.trim.toLower

/-- Load-time cleaning of one row: rows with unparseable dates are dropped
(`dropna(subset=['dateAdded'])`, main.py line 9), surviving rows get the
normalized ransomware field. -/
def loadRecord (rr : RawRecord) : Option Record :=
  match rr.dateAdded with
  | none => none
  | some d =>
      some { dateAdded := d,
             vendorProject := rr.vendorProject,
             cwes := rr.cwes,
             knownRansomwareCampaignUse :=
               normalizeRansomware rr.knownRansomwareCampaignUse }

/-- The in-memory dataset `df` after main.py lines 7-12. -/
def loadDataset (raw : List RawRecord) : List Record :=
  raw.filterMap loadRecord

/-- The cleaned record corresponding to a raw row with a parseable date
(the `Date` default is irrelevant: it is only used under `isSome`). -/
def cleanRecord (rr : RawRecord) : Record :=
  { dateAdded := rr.dateAdded.getD ⟨0, 0, 0⟩,
    vendorProject := rr.vendorProject,
    cwes := rr.cwes,
    knownRansomwareCampaignUse :=
      normalizeRansomware rr.knownRansomwareCampaignUse }

/-- The ransomware radio button: 'All' | 'Known' | 'Unknown'. -/
inductive RansomwareMode
  | all
  | known
  | unknown
deriving DecidableEq, Repr

/-- The four query parameters of `update_graph`; an empty list models a
falsy (`None` or empty) dropdown value, imposing no restriction. -/
structure FilterSelection where
  years : List Nat
  vendors : List String
  cwes : List String
  ransomwareMode : RansomwareMode
deriving DecidableEq, Repr

/-- Python `str(x)` applied to the `cwes` cell (main.py line 88): a missing
cell is the float NaN and stringifies to "nan". -/
def rawCwesText : Option String → String
  | none => "nan"
  | some s => s

/-- Python substring containment `frag in hay`. -/
def containsFrag (hay frag : String) : Bool :=
  decide (frag.data <:+: hay.data)

/-- `filtered_df['dateAdded'].dt.year.isin(selected_years)` for one row. -/
def yearKeep (sel : FilterSelection) (r : Record) : Bool :=
  decide (r.dateAdded.year ∈ sel.years)

/-- `filtered_df['vendorProject'].isin(selected_vendors)` for one row: a
missing vendor (NaN) is never a member of a list of string labels. -/
def vendorKeep (sel : FilterSelection) (r : Record) : Bool :=
  match r.vendorProject with
  | none => false
  | some v => decide (v ∈ sel.vendors)

/-- `any(cwe in str(x) for cwe in selected_cwes)` for one row
(main.py line 88). -/
def cweKeep (sel : FilterSelection) (r : Record) : Bool :=
  sel.cwes.any (fun c => containsFrag (rawCwesText r.cwes) c)

/-- One ransomware-mode comparison against the normalized column. -/
def ransomwareKeep (mode : RansomwareMode) (r : Record) : Bool :=
  match mode with
  | .all => true
  | .known => r.knownRansomwareCampaignUse == "known"
  | .unknown => r.knownRansomwareCampaignUse != "known"

/-- `if selected_years: filtered_df = filtered_df[...isin(selected_years)]`
(main.py lines 83-84). -/
def filterYears (sel : FilterSelection) (rs : List Record) : List Record :=
  if sel.years.isEmpty then rs else rs.filter (yearKeep sel)

/-- `if selected_vendors: ...` (main.py lines 85-86). -/
def filterVendors (sel : FilterSelection) (rs : List Record) : List Record :=
  if sel.vendors.isEmpty then rs else rs.filter (vendorKeep sel)

/-- `if selected_cwes: ...` (main.py lines 87-88). -/
def filterCwes (sel : FilterSelection) (rs : List Record) : List Record :=
  if sel.cwes.isEmpty then rs else rs.filter (cweKeep sel)

/-- The ransomware radio filter (main.py lines 90-93): 'Known' keeps rows
equal to "known", 'Unknown' keeps rows different from "known", 'All'
leaves the frame untouched. -/
def filterRansomware (mode : RansomwareMode) (rs : List Record) : List Record :=
  match mode with
  | .all => rs
  | .known => rs.filter (fun r => r.knownRansomwareCampaignUse == "known")
  | .unknown => rs.filter (fun r => r.knownRansomwareCampaignUse != "known")

/-- The whole filtering pipeline of `update_graph` (main.py lines 81-93). -/
def applyFilters (ds : List Record) (sel : FilterSelection) : List Record :=
  filterRansomware sel.ransomwareMode
    (filterCwes sel (filterVendors sel (filterYears sel ds)))

/-- `dateAdded.dt.to_period('M')`: the (year, month) grouping key. -/
def monthKey (r : Record) : Nat × Nat :=
  (r.dateAdded.year, r.dateAdded.month)

/-- The size of the group of rows falling in month `k`. -/
def monthCount (rs : List Record) (k : Nat × Nat) : Nat :=
  rs.countP (fun r => decide (monthKey r = k))

/-- Ascending order on month periods: by year, then by month. -/
def keyLe (a b : Nat × Nat) : Prop :=
  a.1 < b.1 ∨ (a.1 = b.1 ∧ a.2 ≤ b.2)

/-- Strict ascending order on month periods. -/
def keyLt (a b : Nat × Nat) : Prop :=
  a.1 < b.1 ∨ (a.1 = b.1 ∧ a.2 < b.2)

instance : DecidableRel keyLe := fun a b => by
  unfold keyLe; infer_instance

instance : DecidableRel keyLt := fun a b => by
  unfold keyLt; infer_instance

instance : IsTotal (Nat × Nat) keyLe := by
  constructor
  intro a b
  rcases Nat.lt_trichotomy a.1 b.1 with h | h | h
  · exact Or.inl (Or.inl h)
  · rcases Nat.le_total a.2 b.2 with h2 | h2
    · exact Or.inl (Or.inr ⟨h, h2⟩)
    · exact Or.inr (Or.inr ⟨h.symm, h2⟩)
  · exact Or.inr (Or.inl h)

instance : IsTrans (Nat × Nat) keyLe := by
  constructor
  rintro a b c (h | ⟨h, h2⟩) (g | ⟨g, g2⟩)
  · exact Or.inl (h.trans g)
  · exact Or.inl (g ▸ h)
  · exact Or.inl (h ▸ g)
  · exact Or.inr ⟨h.trans g, h2.trans g2⟩

/-- `groupby(dt.to_period('M')).size()` (main.py line 98): the distinct
month keys present among `rs`, sorted ascending, each with its group
size.  An empty input yields the empty series (the "no data" branch of
main.py lines 95-96 renders an empty figure). -/
def monthlySeries (rs : List Record) : List ((Nat × Nat) × Nat) :=
  (List.insertionSort keyLe ((rs.map monthKey).dedup)).map (fun k => (k, monthCount rs k))

/-- The core aggregation: filter, then group by month. -/
def aggregate (ds : List Record) (sel : FilterSelection) : List ((Nat × Nat) × Nat) :=
  monthlySeries (applyFilters ds sel)

/-- The `update_graph` callback as a state transformer over the global
dataframe `df`: it reads the global, works on a copy (`df.copy()`,
main.py line 81), never assigns the global, and returns the figure's
series.  The first component is the global after the call. -/
def update_graph (df : List Record) (sel : FilterSelection) :
    List Record × List ((Nat × Nat) × Nat) :=
  (df, aggregate df sel)

/-- A sequence of callback invocations threading the global dataframe. -/
def runQueries (ds : List Record) (sels : List FilterSelection) :
    List Record × List (List ((Nat × Nat) × Nat)) :=
  match sels with
  | [] => (ds, [])
  | sel :: rest =>
      let step := update_graph ds sel
      let next := runQueries step.1 rest
      (next.1, step.2 :: next.2)

/-- The conjunction of all active filter predicates, as one pass. -/
def keepRecord (sel : FilterSelection) (r : Record) : Bool :=
  (sel.years.isEmpty || yearKeep sel r) &&
  (sel.vendors.isEmpty || vendorKeep sel r) &&
  (sel.cwes.isEmpty || cweKeep sel r) &&
  ransomwareKeep sel.ransomwareMode r

/-! ### Concrete data for witnesses (the scenario of spec section 8) -/

/-- Scenario record: 2023-01-15, vendor Acme, CWE-79, ransomware known. -/
def exR1 : Record := ⟨⟨2023, 1, 15⟩, some "Acme", some "CWE-79", "known"⟩

/-- Scenario record: 2023-01-20, vendor Acme, CWE-89, empty ransomware text. -/
def exR2 : Record := ⟨⟨2023, 1, 20⟩, some "Acme", some "CWE-89", ""⟩

/-- Scenario record: 2023-02-01, vendor Globex, CWE-79, ransomware known. -/
def exR3 : Record := ⟨⟨2023, 2, 1⟩, some "Globex", some "CWE-79", "known"⟩

/-- A record with missing vendor and missing cwes cells (pandas NaN). -/
def exR4 : Record := ⟨⟨2024, 3, 5⟩, none, none, "nan"⟩

/-- The three-record scenario dataset of spec section 8. -/
def exDs : List Record := [exR1, exR2, exR3]

/-- A selection activating all three membership filters. -/
def exSel : FilterSelection := ⟨[2023], ["Acme"], ["CWE-7"], .all⟩

/-- The all-empty selection (no restriction). -/
def exSelAll : FilterSelection := ⟨[], [], [], .all⟩

/-! ### Normalizing the pipeline to a single filter -/

lemma filterYears_eq_filter (sel : FilterSelection) (rs : List Record) :
    filterYears sel rs = rs.filter (fun r => sel.years.isEmpty || yearKeep sel r) := by
  by_cases h : sel.years.isEmpty <;>
    simp [filterYears, h]

lemma filterVendors_eq_filter (sel : FilterSelection) (rs : List Record) :
    filterVendors sel rs = rs.filter (fun r => sel.vendors.isEmpty || vendorKeep sel r) := by
  by_cases h : sel.vendors.isEmpty <;>
    simp [filterVendors, h]

lemma filterCwes_eq_filter (sel : FilterSelection) (rs : List Record) :
    filterCwes sel rs = rs.filter (fun r => sel.cwes.isEmpty || cweKeep sel r) := by
  by_cases h : sel.cwes.isEmpty <;>
    simp [filterCwes, h]

lemma filterRansomware_eq_filter (mode : RansomwareMode) (rs : List Record) :
    filterRansomware mode rs = rs.filter (ransomwareKeep mode) := by
  cases mode
  · exact (List.filter_true rs).symm
  · rfl
  · rfl

/-- The four sequential filters of `update_graph` amount to one filter by
the conjunction of the active predicates. -/
lemma applyFilters_eq_filter (ds : List Record) (sel : FilterSelection) :
    applyFilters ds sel = ds.filter (keepRecord sel) := by
  rw [applyFilters, filterYears_eq_filter, filterVendors_eq_filter,
    filterCwes_eq_filter, filterRansomware_eq_filter,
    List.filter_filter, List.filter_filter, List.filter_filter]
  refine List.filter_congr (fun r _ => ?_)
  simp only [keepRecord]
  cases sel.years.isEmpty <;> cases sel.vendors.isEmpty <;>
    cases sel.cwes.isEmpty <;> cases yearKeep sel r <;>
    cases vendorKeep sel r <;> cases cweKeep sel r <;>
    cases ransomwareKeep sel.ransomwareMode r <;> rfl

/-! ### Counting lemmas for the monthly series -/

lemma sum_monthCounts_dedup (rs : List Record) :
    (((rs.map monthKey).dedup).map (fun k => monthCount rs k)).sum = rs.length := by
  have h := List.sum_map_count_dedup_eq_length (rs.map monthKey)
  rw [List.length_map] at h
  simp only [List.count_eq_countP, List.countP_map] at h
  simpa only [monthCount] using h

lemma sum_counts_monthlySeries (rs : List Record) :
    ((monthlySeries rs).map Prod.snd).sum = rs.length := by
  rw [monthlySeries, List.map_map]
  have hperm :=
    (List.perm_insertionSort keyLe ((rs.map monthKey).dedup)).map
      (Prod.snd ∘ fun k => (k, monthCount rs k))
  rw [hperm.sum_eq]
  simpa using sum_monthCounts_dedup rs

/-! ### Pointwise characterization of the combined predicate -/

lemma yearGuard_iff (sel : FilterSelection) (r : Record) :
    (sel.years.isEmpty || yearKeep sel r) = true ↔
      (sel.years ≠ [] → r.dateAdded.year ∈ sel.years) := by
  simp only [Bool.or_eq_true, List.isEmpty_iff, yearKeep, decide_eq_true_eq]
  tauto

lemma vendorGuard_iff (sel : FilterSelection) (r : Record) :
    (sel.vendors.isEmpty || vendorKeep sel r) = true ↔
      (sel.vendors ≠ [] → ∃ v, r.vendorProject = some v ∧ v ∈ sel.vendors) := by
  cases h : r.vendorProject with
  | none =>
      simp only [Bool.or_eq_true, List.isEmpty_iff, vendorKeep, h]
      constructor
      · rintro (he | hf) hne
        · exact absurd he hne
        · cases hf
      · intro himpl
        by_cases hne : sel.vendors = []
        · exact Or.inl hne
        · obtain ⟨v, hv, _⟩ := himpl hne
          cases hv
  | some v =>
      simp only [Bool.or_eq_true, List.isEmpty_iff, vendorKeep, h, decide_eq_true_eq,
        Option.some.injEq]
      constructor
      · rintro (he | hm) hne
        · exact absurd he hne
        · exact ⟨v, rfl, hm⟩
      · intro himpl
        by_cases hne : sel.vendors = []
        · exact Or.inl hne
        · obtain ⟨w, hw, hmem⟩ := himpl hne
          exact Or.inr (hw ▸ hmem)

lemma cweGuard_iff (sel : FilterSelection) (r : Record) :
    (sel.cwes.isEmpty || cweKeep sel r) = true ↔
      (sel.cwes ≠ [] → ∃ c ∈ sel.cwes, c.data <:+: (rawCwesText r.cwes).data) := by
  simp only [Bool.or_eq_true, List.isEmpty_iff, cweKeep, List.any_eq_true,
    containsFrag, decide_eq_true_eq]
  tauto

lemma ransomwareKeep_iff (mode : RansomwareMode) (r : Record) :
    ransomwareKeep mode r = true ↔
      ((mode = .known → r.knownRansomwareCampaignUse = "known") ∧
       (mode = .unknown → r.knownRansomwareCampaignUse ≠ "known")) := by
  cases mode <;>
    simp [ransomwareKeep]

/-- A record survives all four filtering stages iff it satisfies every
active restriction: year membership when years are selected, vendor
membership when vendors are selected, a CWE substring hit when CWE
fragments are selected, and the ransomware-mode comparison. -/
lemma keepRecord_iff (sel : FilterSelection) (r : Record) :
    keepRecord sel r = true ↔
      ((sel.years ≠ [] → r.dateAdded.year ∈ sel.years) ∧
       (sel.vendors ≠ [] → ∃ v, r.vendorProject = some v ∧ v ∈ sel.vendors) ∧
       (sel.cwes ≠ [] → ∃ c ∈ sel.cwes, c.data <:+: (rawCwesText r.cwes).data) ∧
       (sel.ransomwareMode = .known → r.knownRansomwareCampaignUse = "known") ∧
       (sel.ransomwareMode = .unknown → r.knownRansomwareCampaignUse ≠ "known")) := by
  rw [keepRecord]
  simp only [Bool.and_eq_true]
  rw [yearGuard_iff, vendorGuard_iff, cweGuard_iff, ransomwareKeep_iff]
  tauto

/-- Splitting a count along a Boolean condition. -/
lemma countP_and_split (l : List Record) (p q : Record → Bool) :
    l.countP (fun a => p a && q a) + l.countP (fun a => p a && !q a) = l.countP p := by
  induction l with
  | nil => rfl
  | cons x xs ih =>
      simp only [List.countP_cons]
      cases hp : p x <;> cases hq : q x <;> simp [hp, hq] <;> omega

/-- The combined predicate factors through the ransomware mode. -/
lemma keepRecord_mode (ys : List Nat) (vs cs : List String) (m : RansomwareMode)
    (r : Record) :
    keepRecord ⟨ys, vs, cs, m⟩ r =
      (keepRecord ⟨ys, vs, cs, .all⟩ r && ransomwareKeep m r) := by
  simp only [keepRecord, yearKeep, vendorKeep, cweKeep, ransomwareKeep,
    Bool.and_true, Bool.and_assoc]

/-! ### C1: the series counts sum to the number of matching records -/

/-- C1: for every dataset and every selection, the sum of the counts in
the monthly series returned by the aggregation equals the number of
records satisfying all active filter predicates simultaneously (year
membership when years are selected, vendor membership when vendors are
selected, a CWE substring hit when CWE fragments are selected, and the
ransomware-mode predicate). -/
theorem c1_sum_of_counts_eq_matching_records (ds : List Record) (sel : FilterSelection) :
    ((aggregate ds sel).map Prod.snd).sum = ds.countP (keepRecord sel) ∧
    (∀ r : Record, keepRecord sel r = true ↔
      ((sel.years ≠ [] → r.dateAdded.year ∈ sel.years) ∧
       (sel.vendors ≠ [] → ∃ v, r.vendorProject = some v ∧ v ∈ sel.vendors) ∧
       (sel.cwes ≠ [] → ∃ c ∈ sel.cwes, c.data <:+: (rawCwesText r.cwes).data) ∧
       (sel.ransomwareMode = .known → r.knownRansomwareCampaignUse = "known") ∧
       (sel.ransomwareMode = .unknown → r.knownRansomwareCampaignUse ≠ "known"))) := by
  constructor
  · rw [aggregate, sum_counts_monthlySeries, applyFilters_eq_filter,
      ← List.countP_eq_length_filter]
  · intro r
    exact keepRecord_iff sel r

/-- Witness for C1 at the spec section 8 scenario. -/
theorem c1_witness :
    ((aggregate exDs exSel).map Prod.snd).sum = exDs.countP (keepRecord exSel) ∧
    ((aggregate exDs exSel).map Prod.snd).sum = 1 :=
  ⟨(c1_sum_of_counts_eq_matching_records exDs exSel).1, by decide⟩

/-! ### C5: totality and the empty-result case -/

/-- C5: the aggregation is total (it is a Lean function returning a
value for every dataset and selection), and it returns the empty series
exactly when no record satisfies all active filters: unmatched filters
yield an empty result, never an error. -/
theorem c5_empty_series_iff_no_match (ds : List Record) (sel : FilterSelection) :
    aggregate ds sel = [] ↔ ds.countP (keepRecord sel) = 0 := by
  rw [aggregate, monthlySeries]
  rw [List.map_eq_nil_iff]
  constructor
  · intro h
    have hd : (((applyFilters ds sel).map monthKey).dedup) = [] := by
      have hlen := (List.perm_insertionSort keyLe
        (((applyFilters ds sel).map monthKey).dedup)).length_eq
      rw [h] at hlen
      exact List.length_eq_zero.mp hlen.symm
    have hfr : applyFilters ds sel = [] :=
      List.map_eq_nil_iff.mp ((List.dedup_eq_nil _).mp hd)
    rw [applyFilters_eq_filter] at hfr
    rw [List.countP_eq_zero]
    exact List.filter_eq_nil_iff.mp hfr
  · intro h
    have hfr : applyFilters ds sel = [] := by
      rw [applyFilters_eq_filter]
      exact List.filter_eq_nil_iff.mpr (List.countP_eq_zero.mp h)
    rw [hfr]
    rfl

/-! ### C3: Known and Unknown partition All -/

/-- C3: for fixed year/vendor/CWE filters, the Known and Unknown modes
keep disjoint sets of records whose union is exactly what All keeps, so
the Known and Unknown totals add up to the All total, both over the whole
filtered set and per month. -/
theorem c3_ransomware_modes_partition (ds : List Record) (ys : List Nat)
    (vs cs : List String) (k : Nat × Nat) (r : Record) :
    (ransomwareKeep .known r && ransomwareKeep .unknown r) = false ∧
    (ransomwareKeep .known r || ransomwareKeep .unknown r) = ransomwareKeep .all r ∧
    (applyFilters ds ⟨ys, vs, cs, .known⟩).length
      + (applyFilters ds ⟨ys, vs, cs, .unknown⟩).length
      = (applyFilters ds ⟨ys, vs, cs, .all⟩).length ∧
    monthCount (applyFilters ds ⟨ys, vs, cs, .known⟩) k
      + monthCount (applyFilters ds ⟨ys, vs, cs, .unknown⟩) k
      = monthCount (applyFilters ds ⟨ys, vs, cs, .all⟩) k := by
  refine ⟨?_, ?_, ?_, ?_⟩
  · rw [show ransomwareKeep .unknown r = !(ransomwareKeep .known r) from rfl]
    exact Bool.and_not_self _
  · rw [show ransomwareKeep .unknown r = !(ransomwareKeep .known r) from rfl]
    exact Bool.or_not_self _
  · rw [applyFilters_eq_filter, applyFilters_eq_filter, applyFilters_eq_filter,
      ← List.countP_eq_length_filter, ← List.countP_eq_length_filter,
      ← List.countP_eq_length_filter]
    have hK : ds.countP (keepRecord ⟨ys, vs, cs, .known⟩)
        = ds.countP (fun x => keepRecord ⟨ys, vs, cs, .all⟩ x
            && (x.knownRansomwareCampaignUse == "known")) :=
      List.countP_congr (fun x _ => by rw [keepRecord_mode]; exact Iff.rfl)
    have hU : ds.countP (keepRecord ⟨ys, vs, cs, .unknown⟩)
        = ds.countP (fun x => keepRecord ⟨ys, vs, cs, .all⟩ x
            && !(x.knownRansomwareCampaignUse == "known")) :=
      List.countP_congr (fun x _ => by rw [keepRecord_mode]; exact Iff.rfl)
    rw [hK, hU]
    exact countP_and_split ds _ _
  · rw [applyFilters_eq_filter, applyFilters_eq_filter, applyFilters_eq_filter]
    simp only [monthCount, List.countP_filter]
    have hK : ds.countP (fun x => decide (monthKey x = k) && keepRecord ⟨ys, vs, cs, .known⟩ x)
        = ds.countP (fun x => (decide (monthKey x = k) && keepRecord ⟨ys, vs, cs, .all⟩ x)
            && (x.knownRansomwareCampaignUse == "known")) :=
      List.countP_congr (fun x _ => by rw [keepRecord_mode, ← Bool.and_assoc]; exact Iff.rfl)
    have hU : ds.countP (fun x => decide (monthKey x = k) && keepRecord ⟨ys, vs, cs, .unknown⟩ x)
        = ds.countP (fun x => (decide (monthKey x = k) && keepRecord ⟨ys, vs, cs, .all⟩ x)
            && !(x.knownRansomwareCampaignUse == "known")) :=
      List.countP_congr (fun x _ => by rw [keepRecord_mode, ← Bool.and_assoc]; exact Iff.rfl)
    rw [hK, hU]
    exact countP_and_split ds _ _

/-! ### C2: the CWE filter is a substring match on the raw text -/

/-- C2: with a non-empty CWE selection, a record passes the CWE filter
iff at least one requested fragment is a contiguous substring of the
record's raw, unsplit cwes text; in particular "CWE-79,CWE-89" matches
the fragment "CWE-7", while the fragment "CWE-9" matches neither
"CWE-79" nor "CWE-89". -/
theorem c2_cwe_filter_is_substring_match (ds : List Record) (sel : FilterSelection)
    (r : Record) (h : sel.cwes ≠ []) :
    (r ∈ filterCwes sel ds ↔
      r ∈ ds ∧ ∃ c ∈ sel.cwes, c.data <:+: (rawCwesText r.cwes).data) ∧
    cweKeep ⟨[], [], ["CWE-7"], .all⟩ ⟨⟨2023, 1, 15⟩, none, some "CWE-79,CWE-89", "known"⟩ = true ∧
    cweKeep ⟨[], [], ["CWE-9"], .all⟩ ⟨⟨2023, 1, 15⟩, none, some "CWE-79", "known"⟩ = false ∧
    cweKeep ⟨[], [], ["CWE-9"], .all⟩ ⟨⟨2023, 1, 15⟩, none, some "CWE-89", "known"⟩ = false := by
  refine ⟨?_, by decide, by decide, by decide⟩
  rw [filterCwes, if_neg (by simpa [List.isEmpty_iff] using h), List.mem_filter]
  apply and_congr_right
  intro _
  simp only [cweKeep, List.any_eq_true, containsFrag, decide_eq_true_eq]

/-- Witness for C2 at the scenario dataset and selection. -/
theorem c2_witness :
    exR1 ∈ filterCwes exSel exDs ↔
      exR1 ∈ exDs ∧ ∃ c ∈ exSel.cwes, c.data <:+: (rawCwesText exR1.cwes).data :=
  (c2_cwe_filter_is_substring_match exDs exSel exR1 (by decide)).1

/-! ### C6: year and vendor filters are exact membership filters -/

/-- C6: a non-empty years selection keeps exactly the records whose
dateAdded year is a member of it, a non-empty vendors selection keeps
exactly the records whose vendorProject is one of the selected labels,
and an empty years or vendors selection imposes no restriction. -/
theorem c6_year_and_vendor_filters (ds : List Record) (sel : FilterSelection)
    (r : Record) :
    (sel.years = [] → filterYears sel ds = ds) ∧
    (sel.years ≠ [] →
      (r ∈ filterYears sel ds ↔ r ∈ ds ∧ r.dateAdded.year ∈ sel.years)) ∧
    (sel.vendors = [] → filterVendors sel ds = ds) ∧
    (sel.vendors ≠ [] →
      (r ∈ filterVendors sel ds ↔
        r ∈ ds ∧ ∃ v, r.vendorProject = some v ∧ v ∈ sel.vendors)) := by
  refine ⟨?_, ?_, ?_, ?_⟩
  · intro h
    rw [filterYears, if_pos (by simp [h])]
  · intro h
    rw [filterYears, if_neg (by simpa [List.isEmpty_iff] using h), List.mem_filter]
    apply and_congr_right
    intro _
    simp only [yearKeep, decide_eq_true_eq]
  · intro h
    rw [filterVendors, if_pos (by simp [h])]
  · intro h
    rw [filterVendors, if_neg (by simpa [List.isEmpty_iff] using h), List.mem_filter]
    apply and_congr_right
    intro _
    cases hv : r.vendorProject with
    | none => simp [vendorKeep, hv]
    | some v => simp [vendorKeep, hv]

/-- Witness for C6: the year filter of the scenario selection. -/
theorem c6_witness :
    exR1 ∈ filterYears exSel exDs ↔ exR1 ∈ exDs ∧ exR1.dateAdded.year ∈ exSel.years :=
  (c6_year_and_vendor_filters exDs exSel exR1).2.1 (by decide)

/-! ### C9: a missing cwes cell is filtered as the text "nan" -/

/-- C9: a record whose cwes cell is missing is matched against the
literal text "nan" (the string coercion of NaN): it passes the CWE test
iff some requested fragment is a substring of "nan" (so "a", "n" and
"nan" match it, while a fragment outside "nan" such as "CWE" does not). -/
theorem c9_missing_cwes_filtered_as_nan (sel : FilterSelection) (r : Record)
    (h : r.cwes = none) :
    (cweKeep sel r = true ↔ ∃ c ∈ sel.cwes, c.data <:+: "nan".data) ∧
    cweKeep ⟨[], [], ["a"], .all⟩ exR4 = true ∧
    cweKeep ⟨[], [], ["n"], .all⟩ exR4 = true ∧
    cweKeep ⟨[], [], ["nan"], .all⟩ exR4 = true ∧
    cweKeep ⟨[], [], ["CWE"], .all⟩ exR4 = false := by
  refine ⟨?_, by decide, by decide, by decide, by decide⟩
  simp only [cweKeep, List.any_eq_true, containsFrag, h, rawCwesText, decide_eq_true_eq]

/-- Witness for C9 at the record with a missing cwes cell. -/
theorem c9_witness :
    cweKeep ⟨[], [], ["nan"], .all⟩ exR4 = true :=
  (c9_missing_cwes_filtered_as_nan ⟨[], [], ["nan"], .all⟩ exR4 rfl).2.2.2.1

/-! ### C10: a missing vendor never matches a non-empty vendor selection -/

/-- C10: with a non-empty vendors selection, a record whose
vendorProject cell is missing fails the vendor test and is excluded from
the vendor-filtered frame, while an empty vendors selection leaves the
frame (and hence such records) untouched. -/
theorem c10_missing_vendor_excluded (ds : List Record) (sel : FilterSelection)
    (r : Record) (h : r.vendorProject = none) :
    (sel.vendors ≠ [] → vendorKeep sel r = false ∧ r ∉ filterVendors sel ds) ∧
    (sel.vendors = [] → filterVendors sel ds = ds) := by
  constructor
  · intro hne
    have hv : vendorKeep sel r = false := by simp [vendorKeep, h]
    refine ⟨hv, ?_⟩
    rw [filterVendors, if_neg (by simpa [List.isEmpty_iff] using hne)]
    intro hmem
    have hcontra := (List.mem_filter.mp hmem).2
    rw [hv] at hcontra
    cases hcontra
  · intro h0
    rw [filterVendors, if_pos (by simp [h0])]

/-- Witness for C10 at the record with a missing vendor cell. -/
theorem c10_witness :
    vendorKeep exSel exR4 = false ∧ exR4 ∉ filterVendors exSel exDs :=
  (c10_missing_vendor_excluded exDs exSel exR4 rfl).1 (by decide)

/-! ### C4: the series is strictly sorted, complete and zero-free -/

/-- Weak order plus distinctness gives the strict month order. -/
lemma keyLt_of_keyLe_ne {a b : Nat × Nat} (hle : keyLe a b) (hne : a ≠ b) :
    keyLt a b := by
  rcases hle with h | ⟨h1, h2⟩
  · exact Or.inl h
  · have h2' : a.2 ≠ b.2 := fun heq => hne (Prod.ext h1 heq)
    exact Or.inr ⟨h1, lt_of_le_of_ne h2 h2'⟩

/-- C4: the returned series is strictly ascending in the month key (hence
has no duplicate months), every emitted count is at least 1 and is the
exact number of matching records of its month, and a month appears in the
series iff some record of the filtered set falls in it. -/
theorem c4_series_sorted_and_complete (ds : List Record) (sel : FilterSelection) :
    List.Pairwise (fun a b => keyLt a.1 b.1) (aggregate ds sel) ∧
    (∀ e, e ∈ aggregate ds sel →
      1 ≤ e.2 ∧ e.2 = monthCount (applyFilters ds sel) e.1) ∧
    (∀ k : Nat × Nat,
      ((∃ r ∈ applyFilters ds sel, monthKey r = k) ↔
        ∃ e ∈ aggregate ds sel, e.1 = k)) := by
  have hperm := List.perm_insertionSort keyLe (((applyFilters ds sel).map monthKey).dedup)
  have hsorted := List.sorted_insertionSort keyLe (((applyFilters ds sel).map monthKey).dedup)
  have hnodup : (List.insertionSort keyLe (((applyFilters ds sel).map monthKey).dedup)).Nodup :=
    hperm.nodup_iff.mpr (List.nodup_dedup _)
  refine ⟨?_, ?_, ?_⟩
  · rw [aggregate, monthlySeries, List.pairwise_map]
    exact List.Pairwise.imp₂ (fun a b hle hne => keyLt_of_keyLe_ne hle hne) hsorted hnodup
  · intro e he
    rw [aggregate, monthlySeries] at he
    obtain ⟨k, hk, rfl⟩ := List.mem_map.mp he
    refine ⟨?_, rfl⟩
    have hk2 : k ∈ (applyFilters ds sel).map monthKey :=
      List.mem_dedup.mp (hperm.mem_iff.mp hk)
    obtain ⟨r, hr, hrk⟩ := List.mem_map.mp hk2
    exact List.countP_pos_iff.mpr ⟨r, hr, by simp [hrk]⟩
  · intro k
    constructor
    · rintro ⟨r, hr, hrk⟩
      refine ⟨(k, monthCount (applyFilters ds sel) k), ?_, rfl⟩
      rw [aggregate, monthlySeries]
      exact List.mem_map.mpr
        ⟨k, hperm.mem_iff.mpr (List.mem_dedup.mpr (List.mem_map.mpr ⟨r, hr, hrk⟩)), rfl⟩
    · rintro ⟨e, he, hek⟩
      rw [aggregate, monthlySeries] at he
      obtain ⟨k', hk', rfl⟩ := List.mem_map.mp he
      have hk2 : k' ∈ (applyFilters ds sel).map monthKey :=
        List.mem_dedup.mp (hperm.mem_iff.mp hk')
      obtain ⟨r, hr, hrk⟩ := List.mem_map.mp hk2
      exact ⟨r, hr, by rw [hrk]; exact hek⟩

/-- Witness for C4: the January 2023 entry of the scenario has count 2. -/
theorem c4_witness :
    1 ≤ (((2023, 1), 2) : (Nat × Nat) × Nat).2 ∧
    (((2023, 1), 2) : (Nat × Nat) × Nat).2 =
      monthCount (applyFilters exDs exSelAll) (((2023, 1), 2) : (Nat × Nat) × Nat).1 :=
  (c4_series_sorted_and_complete exDs exSelAll).2.1 ((2023, 1), 2) (by decide)

/-! ### C7: records with unparseable dates are dropped at load time -/

/-- Loading keeps, in order, exactly the raw rows whose date parsed. -/
lemma loadDataset_eq_filter_map (raw : List RawRecord) :
    loadDataset raw = (raw.filter (fun rr => rr.dateAdded.isSome)).map cleanRecord := by
  induction raw with
  | nil => rfl
  | cons rr rest ih =>
      cases hd : rr.dateAdded with
      | none =>
          simp [loadDataset, List.filterMap_cons, List.filter_cons, loadRecord, hd] at ih ⊢
          exact ih
      | some d =>
          simp [loadDataset, List.filterMap_cons, List.filter_cons, loadRecord,
            cleanRecord, hd] at ih ⊢
          exact ih

/-- C7: the in-memory dataset is exactly the image of the raw rows whose
dateAdded parsed, in their original order, with the ransomware field
normalized; its size is the number of parseable rows, so every row with
an unparseable date is silently dropped once, at load time. -/
theorem c7_unparseable_dates_dropped_at_load (raw : List RawRecord) :
    loadDataset raw = (raw.filter (fun rr => rr.dateAdded.isSome)).map cleanRecord ∧
    (loadDataset raw).length = raw.countP (fun rr => rr.dateAdded.isSome) := by
  refine ⟨loadDataset_eq_filter_map raw, ?_⟩
  rw [loadDataset_eq_filter_map raw, List.length_map, List.countP_eq_length_filter]

/-! ### C8: queries never change the dataset -/

/-- C8: the `update_graph` callback returns the global dataset unchanged,
any sequence of calls leaves it unchanged, and every answer in the
sequence is the pure aggregation of the original dataset with its own
selection — so equal selections on the same dataset give equal results. -/
theorem c8_queries_leave_dataset_unchanged (ds : List Record)
    (sels : List FilterSelection) (sel : FilterSelection) :
    (update_graph ds sel).1 = ds ∧
    (runQueries ds sels).1 = ds ∧
    (runQueries ds sels).2 = sels.map (fun s => aggregate ds s) := by
  have h : ∀ l : List FilterSelection,
      (runQueries ds l).1 = ds ∧ (runQueries ds l).2 = l.map (fun s => aggregate ds s) := by
    intro l
    induction l with
    | nil => exact ⟨rfl, rfl⟩
    | cons s rest ih =>
        refine ⟨?_, ?_⟩
        · show (runQueries ds rest).1 = ds
          exact ih.1
        · show aggregate ds s :: (runQueries ds rest).2 = _
          rw [ih.2, List.map_cons]
  exact ⟨rfl, (h sels).1, (h sels).2⟩

end KEV
